import Mathlib

/-!
Verification development for the blog repository's link-checker script
(`scripts/link-checker.js`).  The script crawls a locally running site,
extracts internal hyperlinks from a fixed list of seed pages, verifies
each link with a HEAD request (deduplicated via a visited set), checks a
list of static files on disk, and collects all failures as findings.

The embedding below translates the JavaScript source faithfully:
strings are Lean `String`s, the `fetch` network boundary is an oracle
`String → FetchOutcome`, the filesystem is an oracle `String → Bool`,
and every operation additionally returns the list of network requests it
issued so that deduplication and probe-gating properties can be stated.
-/

namespace LinkCheck

/-! ### Configuration constants (lines 16-33 of the script) -/

def BASE_URL : String := "http://localhost:4321/blog-monakit"

def TIMEOUT : Nat := 5000

def PAGES_TO_CHECK : List String :=
  ["/", "/blogs", "/investment-results",
   "/blogs/diversified-investment-feature-complete"]

def FILES_TO_CHECK : List String :=
  ["src/pages/index.astro", "src/pages/blogs/index.astro",
   "src/pages/investment-results/index.astro", "src/layouts/Layout.astro"]

/-- The list hard-coded inside `checkStaticFiles` (lines 201-204); note the
script iterates this local list, not `FILES_TO_CHECK`. -/
def staticFiles : List String :=
  ["public/enhanced_dividend_result_20251016_145023.html",
   "public/netnet_result.html"]

/-! ### String primitives mirroring the JavaScript ones used by the script -/

/-- JavaScript `String.prototype.startsWith`. -/
def strStartsWith (s pre : String) : Bool :=
  pre.data.isPrefixOf s.data

/-- JavaScript `String.prototype.replace` with a string pattern replaces only
the first occurrence of the pattern; this is the char-list worker. -/
def replaceFirstL (pat repl : List Char) : List Char → List Char
  | [] => if pat.isEmpty then repl else []
  | c :: cs =>
    if pat.isPrefixOf (c :: cs) then repl ++ (c :: cs).drop pat.length
    else c :: replaceFirstL pat repl cs

/-- JavaScript `s.replace(pat, repl)` for string patterns (first occurrence). -/
def strReplaceFirst (s pat repl : String) : String :=
  ⟨replaceFirstL pat.data repl.data s.data⟩

/-! ### Link normalization and classification (lines 140-145, 185-193) -/

/-- `normalizeLink` from the script: strip the base-path prefix, keep
already-absolute links, and prepend `/` to anything else. -/
def normalizeLink (link : String) : String :=
  if strStartsWith link "/blog-monakit/" then
    strReplaceFirst link "/blog-monakit" ""
  else if strStartsWith link "/" then link
  else "/" ++ link

/-- `isInternalLink` from the script. -/
def isInternalLink (link : String) : Bool :=
  strStartsWith link "/blog-monakit/" || strStartsWith link "/" ||
  strStartsWith link "./" || strStartsWith link "../"

/-! ### href extraction (lines 121-135)

The script scans the raw HTML with the global regex
`href=["']([^"']+)["']`, keeps the internal matches and removes
duplicates with `[...new Set(links)]`.  The scanner below reproduces the
regex semantics: at each position try to match `href=`, an opening
quote, a non-empty maximal run of non-quote characters, and a closing
quote; on success continue after the whole match, otherwise advance one
character. -/

def isQuote (c : Char) : Bool :=
  c = Char.ofNat 34 || c = Char.ofNat 39

/-- Split off the maximal leading run of non-quote characters. -/
def takeNonQuote : List Char → List Char × List Char
  | [] => ([], [])
  | c :: cs =>
    if isQuote c then ([], c :: cs)
    else
      let p := takeNonQuote cs
      (c :: p.1, p.2)

/-- Try to match `href=["']([^"']+)["']` at the head of the input;
returns the captured group and the remainder after the closing quote. -/
def tryMatchHref : List Char → Option (String × List Char)
  | 'h' :: 'r' :: 'e' :: 'f' :: '=' :: q :: rest =>
    if isQuote q then
      let p := takeNonQuote rest
      match p.1, p.2 with
      | [], _ => none
      | _ :: _, [] => none
      | cap, _ :: rest3 => some (⟨cap⟩, rest3)
    else none
  | _ => none

/-- Successive non-overlapping matches, left to right (regex `exec` loop).
The fuel argument only bounds recursion; the input shrinks by at least one
character per step, so `fuel = input.length` never runs out. -/
def extractHrefsAux : Nat → List Char → List String
  | 0, _ => []
  | _ + 1, [] => []
  | fuel + 1, c :: cs =>
    match tryMatchHref (c :: cs) with
    | some p => p.1 :: extractHrefsAux fuel p.2
    | none => extractHrefsAux fuel cs

def extractHrefsList (s : List Char) : List String :=
  extractHrefsAux s.length s

/-- Insertion into a JavaScript `Set` materialized as an ordered list. -/
def dedupInsert (acc : List String) (x : String) : List String :=
  if x ∈ acc then acc else acc ++ [x]

/-- `[...new Set(xs)]`: deduplicate keeping first occurrences in order. -/
def dedupFirst (xs : List String) : List String :=
  xs.foldl dedupInsert []

/-- `extractLinks` from the script: scan for hrefs, keep internal ones,
remove duplicates. -/
def extractLinks (html : String) : List String :=
  dedupFirst ((extractHrefsList html.data).filter isInternalLink)

/-! ### Data model -/

/-- The `status` field of a broken-link record: an HTTP status code,
the string `TIMEOUT`, or the string `NOT_FOUND`. -/
inductive LinkStatus where
  | num (code : Nat)
  | timeout
  | notFound
deriving DecidableEq, Repr

/-- The `type` field of a broken-link record. -/
inductive FindingType where
  | page
  | link
  | file
deriving DecidableEq, Repr

/-- One record pushed onto `this.brokenLinks`. -/
structure Finding where
  page : String
  link : String
  status : LinkStatus
  type : FindingType
  error : Option String := none
deriving DecidableEq, Repr

/-- Outcome of one `fetch`: a response with a status code and body text,
or a thrown error carrying a message. -/
inductive FetchOutcome where
  | resp (status : Nat) (body : String)
  | err (msg : String)
deriving DecidableEq, Repr

/-- `Response.ok`: status in the range 200-299. -/
def respOk (status : Nat) : Bool :=
  200 ≤ status && status ≤ 299

/-- One network request issued by the checker, instrumented with the raw
link for HEAD existence checks. -/
inductive Request where
  | headReq (rawLink url : String)
  | getReq (url : String)
deriving DecidableEq, Repr

/-- The mutable fields of the `LinkChecker` class. -/
structure CheckerState where
  brokenLinks : List Finding
  checkedLinks : List String
  serverRunning : Bool
deriving DecidableEq, Repr

/-- The constructor: empty findings, empty visited set, server unknown. -/
def initState : CheckerState := ⟨[], [], false⟩

/-! ### Operations (each returns the new state and the requests issued) -/

/-- `checkServerStatus`: GET the base URL; a 2xx response marks the server
running, anything else (including a thrown error) marks it not running. -/
def checkServerStatus (net : String → FetchOutcome) (st : CheckerState) :
    CheckerState × List Request :=
  let url := BASE_URL ++ "/"
  match net url with
  | .resp s _ =>
    if respOk s then ({ st with serverRunning := true }, [.getReq url])
    else ({ st with serverRunning := false }, [.getReq url])
  | .err _ => ({ st with serverRunning := false }, [.getReq url])

/-- `checkLink`: skip raw links already in the visited set; otherwise add the
raw link, normalize it, HEAD the resulting URL, and record a finding on a
non-2xx response or a thrown error. -/
def checkLink (net : String → FetchOutcome) (st : CheckerState)
    (sourcePage rawLink : String) : CheckerState × List Request :=
  if rawLink ∈ st.checkedLinks then (st, [])
  else
    let st1 : CheckerState := { st with checkedLinks := st.checkedLinks ++ [rawLink] }
    let absoluteLink := normalizeLink rawLink
    let url := BASE_URL ++ absoluteLink
    match net url with
    | .resp s _ =>
      if respOk s then (st1, [.headReq rawLink url])
      else
        ({ st1 with brokenLinks :=
            st1.brokenLinks ++ [⟨sourcePage, absoluteLink, .num s, .link, none⟩] },
         [.headReq rawLink url])
    | .err m =>
      ({ st1 with brokenLinks :=
          st1.brokenLinks ++ [⟨sourcePage, normalizeLink rawLink, .timeout, .link, some m⟩] },
       [.headReq rawLink url])

/-- The `for (const link of links) await this.checkLink(page, link)` loop. -/
def checkLinksList (net : String → FetchOutcome) (page : String) :
    CheckerState → List String → CheckerState × List Request
  | st, [] => (st, [])
  | st, l :: ls =>
    let p1 := checkLink net st page l
    let p2 := checkLinksList net page p1.1 ls
    (p2.1, p1.2 ++ p2.2)

/-- `checkPageLinks`: skip when the server is down; GET the page; a non-2xx
response records a page finding and stops; a thrown error is logged and
skipped; otherwise extract the links and check each. -/
def checkPageLinks (net : String → FetchOutcome) (st : CheckerState)
    (page : String) : CheckerState × List Request :=
  if st.serverRunning then
    let url := BASE_URL ++ page
    match net url with
    | .resp s body =>
      if respOk s then
        let p := checkLinksList net page st (extractLinks body)
        (p.1, .getReq url :: p.2)
      else
        ({ st with brokenLinks :=
            st.brokenLinks ++ [⟨page, page, .num s, .page, none⟩] },
         [.getReq url])
    | .err _ => (st, [.getReq url])
  else (st, [])

/-- The `for (const page of PAGES_TO_CHECK)` loop in `run`. -/
def runPages (net : String → FetchOutcome) :
    CheckerState → List String → CheckerState × List Request
  | st, [] => (st, [])
  | st, p :: ps =>
    let p1 := checkPageLinks net st p
    let p2 := runPages net p1.1 ps
    (p2.1, p1.2 ++ p2.2)

/-- `checkStaticFiles`: for each file in the hard-coded `staticFiles` list,
a missing file yields a finding with `type=file`, `status=NOT_FOUND`. -/
def checkStaticFiles (fsExists : String → Bool) : List Finding :=
  staticFiles.filterMap fun file =>
    if fsExists file then none
    else some ⟨"static", file, .notFound, .file, none⟩

/-- `run`: probe the server, crawl every seed page, then check static files.
Returns the final state and the full request trace. -/
def runChecker (net : String → FetchOutcome) (fsExists : String → Bool) :
    CheckerState × List Request :=
  let p1 := checkServerStatus net initState
  let p2 := runPages net p1.1 PAGES_TO_CHECK
  ({ p2.1 with brokenLinks := p2.1.brokenLinks ++ checkStaticFiles fsExists },
   p1.2 ++ p2.2)

/-! ### Request-trace accounting -/

/-- Does this request HEAD-check the raw link `r`? -/
def isHeadFor (r : String) : Request → Bool
  | .headReq raw _ => raw == r
  | .getReq _ => false

/-- Number of HEAD existence checks issued for the raw link `r`. -/
def countRaw (tr : List Request) (r : String) : Nat :=
  (tr.filter (isHeadFor r)).length

/-- Does this request HEAD-check the URL `u`? -/
def isHeadToUrl (u : String) : Request → Bool
  | .headReq _ url => url == u
  | .getReq _ => false

/-- Number of HEAD existence checks issued to the URL `u`. -/
def countHeadUrl (tr : List Request) (u : String) : Nat :=
  (tr.filter (isHeadToUrl u)).length

/-! ### Lemmas about the string primitives -/

theorem strStartsWith_iff (s pre : String) :
    strStartsWith s pre = true ↔ pre.data <+: s.data := by
  simp [strStartsWith]

theorem strStartsWith_false_iff (s pre : String) :
    strStartsWith s pre = false ↔ ¬ pre.data <+: s.data := by
  rw [← strStartsWith_iff]
  cases strStartsWith s pre <;> simp

/-- Replacing a non-empty pattern that sits at the very front of the string. -/
theorem replaceFirstL_append (pat repl rest : List Char) (hne : pat ≠ []) :
    replaceFirstL pat repl (pat ++ rest) = repl ++ rest := by
  cases pat with
  | nil => exact absurd rfl hne
  | cons a as =>
    have hpre : (a :: as).isPrefixOf (a :: (as ++ rest)) = true := by
      rw [← List.cons_append]
      simp [List.isPrefixOf_iff_prefix]
    have hdrop : (a :: (as ++ rest)).drop (a :: as).length = rest := by
      rw [← List.cons_append, List.drop_left]
    calc replaceFirstL (a :: as) repl ((a :: as) ++ rest)
        = replaceFirstL (a :: as) repl (a :: (as ++ rest)) := by
          rw [List.cons_append]
      _ = repl ++ rest := by
          simp only [replaceFirstL, hpre, if_true]
          rw [hdrop]

/-- A first character differing from the pattern's first character refutes
`startsWith`. -/
theorem strStartsWith_ne_head (link pre : String) (c d : Char) (t u : List Char)
    (hl : link.data = c :: t) (hp : pre.data = d :: u) (hne : d ≠ c) :
    strStartsWith link pre = false := by
  simp [strStartsWith, hl, hp, List.isPrefixOf, hne]

/-! ### Lemmas about the normalizer -/

theorem data_basePathSlash :
    ("/blog-monakit/").data = ("/blog-monakit").data ++ ['/'] := by decide

/-- Normalizing a link that carries the base-path prefix strips exactly that
prefix. -/
theorem normalizeLink_stripPrefix (x : String) :
    normalizeLink ("/blog-monakit/" ++ x) = "/" ++ x := by
  have hs : strStartsWith ("/blog-monakit/" ++ x) "/blog-monakit/" = true := by
    rw [strStartsWith_iff, String.data_append]
    exact List.prefix_append _ _
  have hdata : ("/blog-monakit/" ++ x).data = ("/blog-monakit").data ++ ('/' :: x.data) := by
    rw [String.data_append, data_basePathSlash, List.append_assoc]
    rfl
  apply String.ext
  simp only [normalizeLink, hs, if_true]
  show replaceFirstL ("/blog-monakit").data [] ("/blog-monakit/" ++ x).data = ("/" ++ x).data
  rw [hdata, replaceFirstL_append _ _ _ (by decide)]
  rfl

/-- A link that starts with `/` but not with the base-path prefix is returned
unchanged. -/
theorem normalizeLink_keep (y : String)
    (h1 : strStartsWith y "/blog-monakit/" = false)
    (h2 : strStartsWith y "/" = true) :
    normalizeLink y = y := by
  simp [normalizeLink, h1, h2]

/-- Every normalized link begins with a slash character. -/
theorem normalizeLink_data_head (link : String) :
    ∃ t, (normalizeLink link).data = '/' :: t := by
  cases hb : strStartsWith link "/blog-monakit/" with
  | true =>
    obtain ⟨rest, hrest⟩ := (strStartsWith_iff _ _).1 hb
    have hdata : link.data = ("/blog-monakit").data ++ ('/' :: rest) := by
      rw [← hrest, data_basePathSlash, List.append_assoc]
      rfl
    refine ⟨rest, ?_⟩
    simp only [normalizeLink, hb, if_true]
    show replaceFirstL ("/blog-monakit").data [] link.data = '/' :: rest
    rw [hdata, replaceFirstL_append _ _ _ (by decide)]
    rfl
  | false =>
    cases hs : strStartsWith link "/" with
    | true =>
      obtain ⟨rest, hrest⟩ := (strStartsWith_iff _ _).1 hs
      refine ⟨rest, ?_⟩
      simp only [normalizeLink, hb, hs, if_true, Bool.false_eq_true, if_false]
      rw [← hrest]
      rfl
    | false =>
      refine ⟨link.data, ?_⟩
      simp only [normalizeLink, hb, hs, Bool.false_eq_true, if_false]
      rfl

/-- Every normalized link begins with a slash, as a `startsWith` fact. -/
theorem normalizeLink_startsWith_slash (link : String) :
    strStartsWith (normalizeLink link) "/" = true := by
  obtain ⟨t, ht⟩ := normalizeLink_data_head link
  rw [strStartsWith_iff, ht]
  exact ⟨t, rfl⟩

/-! ### Claim C3: idempotence of the normalizer -/

/-- C3 counterexample: the link `blog-monakit/x` is not a fixed point of a
second normalization.  The first pass prepends `/`, producing
`/blog-monakit/x`; the second pass then strips the base-path prefix,
producing `/x`. -/
theorem C3_counterexample :
    normalizeLink (normalizeLink "blog-monakit/x") ≠ normalizeLink "blog-monakit/x" := by
  decide

/-- C3 (amended): the normalizer is idempotent on every link whose
normalized form does not itself begin with the base-path prefix
`/blog-monakit/`; in that case normalizing an already-normalized link
returns it unchanged. -/
theorem C3_idempotent_off_basePath (x : String)
    (h : strStartsWith (normalizeLink x) "/blog-monakit/" = false) :
    normalizeLink (normalizeLink x) = normalizeLink x :=
  normalizeLink_keep _ h (normalizeLink_startsWith_slash x)

/-- C3 witness: the hypothesis holds for the concrete link `/a`, and a second
normalization is then the identity. -/
theorem C3_witness :
    strStartsWith (normalizeLink "/a") "/blog-monakit/" = false ∧
    normalizeLink (normalizeLink "/a") = normalizeLink "/a" :=
  ⟨by decide, C3_idempotent_off_basePath "/a" (by decide)⟩

/-! ### Claim C9: prefix-stripping equivalence -/

/-- C9 counterexample: for the path suffix `blog-monakit/y`, the
base-path-prefixed form normalizes to `/blog-monakit/y` (JavaScript
`replace` removes only the first occurrence of the prefix) while the bare
form normalizes to `/y`; the two normalized links differ. -/
theorem C9_counterexample :
    normalizeLink ("/blog-monakit" ++ "/" ++ "blog-monakit/y") ≠
      normalizeLink ("/" ++ "blog-monakit/y") := by
  decide

/-- C9 (amended): for every path suffix `x` that does not itself begin with
`blog-monakit/`, normalizing the base-path-prefixed form
`/blog-monakit/x` and the bare form `/x` yields identical normalized
links. -/
theorem C9_prefix_strip_equiv (x : String)
    (h : strStartsWith x "blog-monakit/" = false) :
    normalizeLink ("/blog-monakit" ++ "/" ++ x) = normalizeLink ("/" ++ x) := by
  have hb : strStartsWith ("/" ++ x) "/blog-monakit/" = false := by
    rw [strStartsWith_false_iff]
    intro hpre
    apply (strStartsWith_false_iff x "blog-monakit/").1 h
    have hdata : ("/" ++ x).data = '/' :: x.data := rfl
    have hpat : ("/blog-monakit/").data = '/' :: ("blog-monakit/").data := by decide
    rw [hdata, hpat, List.cons_prefix_cons] at hpre
    exact hpre.2
  have hslash : strStartsWith ("/" ++ x) "/" = true := by
    rw [strStartsWith_iff]
    exact ⟨x.data, rfl⟩
  have hassoc : "/blog-monakit" ++ "/" ++ x = "/blog-monakit/" ++ x := by
    apply String.ext
    simp [String.data_append]
  rw [hassoc, normalizeLink_stripPrefix, normalizeLink_keep _ hb hslash]

/-- C9 witness: the hypothesis holds for the concrete suffix `about`, where
both forms normalize to `/about`. -/
theorem C9_witness :
    strStartsWith "about" "blog-monakit/" = false ∧
    normalizeLink ("/blog-monakit" ++ "/" ++ "about") = normalizeLink ("/" ++ "about") :=
  ⟨by decide, C9_prefix_strip_equiv "about" (by decide)⟩

/-! ### Claim C10: the normalizer always yields a leading slash -/

/-- C10: for every input string the normalizer returns a non-empty string
that begins with a `/` character, so appending it to the base URL always
forms a well-shaped path. -/
theorem C10_normalized_leading_slash (link : String) :
    normalizeLink link ≠ "" ∧ strStartsWith (normalizeLink link) "/" = true := by
  obtain ⟨t, ht⟩ := normalizeLink_data_head link
  constructor
  · intro hempty
    rw [hempty] at ht
    exact List.noConfusion ht
  · exact normalizeLink_startsWith_slash link

/-! ### Claim C4: fragment-only and query-only anchors -/

/-- Every link returned by the extractor passed the internal-link filter. -/
theorem mem_dedupInsert_foldl (xs : List String) (acc : List String) (l : String) :
    l ∈ xs.foldl dedupInsert acc ↔ l ∈ acc ∨ l ∈ xs := by
  induction xs generalizing acc with
  | nil => simp
  | cons x xs ih =>
    rw [List.foldl_cons, ih]
    unfold dedupInsert
    by_cases hx : x ∈ acc
    · simp only [if_pos hx, List.mem_cons]
      constructor
      · rintro (h | h)
        · exact Or.inl h
        · exact Or.inr (Or.inr h)
      · rintro (h | h | h)
        · exact Or.inl h
        · exact Or.inl (h ▸ hx)
        · exact Or.inr h
    · simp only [if_neg hx, List.mem_append, List.mem_singleton, List.mem_cons]
      tauto

theorem mem_dedupFirst (xs : List String) (l : String) :
    l ∈ dedupFirst xs ↔ l ∈ xs := by
  rw [dedupFirst, mem_dedupInsert_foldl]
  simp

theorem isInternalLink_of_mem_extractLinks (l html : String)
    (h : l ∈ extractLinks html) : isInternalLink l = true := by
  rw [extractLinks, mem_dedupFirst] at h
  exact (List.mem_filter.1 h).2

/-- C4 counterexample: the fragment-only anchor `#section` and the
query-only anchor `?x=1` are both rejected by `isInternalLink`, and an
HTML page whose only hrefs are these anchors yields no candidates. -/
theorem C4_counterexample :
    isInternalLink "#section" = false ∧ isInternalLink "?x=1" = false ∧
    extractLinks "<a href=\"#section\">s</a><a href=\"?x=1\">q</a>" = [] := by
  decide

/-- C4 (amended): a link consisting only of a fragment (starting with `#`)
or only of a query (starting with `?`) is excluded by the internal-link
classification — it starts with none of `/blog-monakit/`, `/`, `./`,
`../` — and is therefore never queued for verification by the extractor. -/
theorem C4_fragment_query_excluded (link : String)
    (h : strStartsWith link "#" = true ∨ strStartsWith link "?" = true) :
    isInternalLink link = false ∧ ∀ html, link ∉ extractLinks html := by
  obtain ⟨c, t, hdata, hc⟩ : ∃ c t, link.data = c :: t ∧ (c = '#' ∨ c = '?') := by
    rcases h with h | h
    · obtain ⟨rest, hrest⟩ := (strStartsWith_iff _ _).1 h
      exact ⟨'#', rest, by rw [← hrest]; rfl, Or.inl rfl⟩
    · obtain ⟨rest, hrest⟩ := (strStartsWith_iff _ _).1 h
      exact ⟨'?', rest, by rw [← hrest]; rfl, Or.inr rfl⟩
  have hno : isInternalLink link = false := by
    have h1 := strStartsWith_ne_head link "/blog-monakit/" c '/' t ("blog-monakit/").data
      hdata (by decide) (by rcases hc with hc | hc <;> simp [hc])
    have h2 := strStartsWith_ne_head link "/" c '/' t [] hdata (by decide)
      (by rcases hc with hc | hc <;> simp [hc])
    have h3 := strStartsWith_ne_head link "./" c '.' t ['/'] hdata (by decide)
      (by rcases hc with hc | hc <;> simp [hc])
    have h4 := strStartsWith_ne_head link "../" c '.' t ("./").data hdata (by decide)
      (by rcases hc with hc | hc <;> simp [hc])
    simp [isInternalLink, h1, h2, h3, h4]
  refine ⟨hno, fun html hmem => ?_⟩
  have := isInternalLink_of_mem_extractLinks link html hmem
  rw [hno] at this
  exact Bool.noConfusion this

/-- C4 witness: the amended claim applied to the concrete anchor
`#section` and a concrete page. -/
theorem C4_witness :
    (strStartsWith "#section" "#" = true ∨ strStartsWith "#section" "?" = true) ∧
    (isInternalLink "#section" = false ∧
      ("#section" : String) ∉ extractLinks "<a href=\"/ok\">x</a>") :=
  ⟨Or.inl (by decide),
   ⟨(C4_fragment_query_excluded "#section" (Or.inl (by decide))).1,
    (C4_fragment_query_excluded "#section" (Or.inl (by decide))).2 _⟩⟩

/-! ### Claim C8: in-page deduplication of extracted links -/

theorem nodup_dedupInsert_foldl (xs : List String) (acc : List String)
    (h : acc.Nodup) : (xs.foldl dedupInsert acc).Nodup := by
  induction xs generalizing acc with
  | nil => simpa
  | cons x xs ih =>
    rw [List.foldl_cons]
    apply ih
    unfold dedupInsert
    by_cases hx : x ∈ acc
    · rwa [if_pos hx]
    · rw [if_neg hx]
      exact List.Nodup.append h (List.nodup_singleton x)
        (fun a ha hmem => hx ((List.mem_singleton.1 hmem) ▸ ha))

theorem nodup_dedupFirst (xs : List String) : (dedupFirst xs).Nodup :=
  nodup_dedupInsert_foldl xs [] List.nodup_nil

/-- C8: the extractor returns a duplicate-free list containing exactly the
distinct internal href values scanned from the page; its length is the
number `N` of distinct internal href values, however many duplicate
occurrences the HTML contains. -/
theorem C8_extract_dedupes (html : String) :
    (extractLinks html).Nodup ∧
    (∀ l, l ∈ extractLinks html ↔
        l ∈ (extractHrefsList html.data).filter isInternalLink) ∧
    (extractLinks html).length =
      ((extractHrefsList html.data).filter isInternalLink).toFinset.card := by
  have hnodup : (extractLinks html).Nodup := nodup_dedupFirst _
  have hmem : ∀ l, l ∈ extractLinks html ↔
      l ∈ (extractHrefsList html.data).filter isInternalLink :=
    fun l => mem_dedupFirst _ l
  refine ⟨hnodup, hmem, ?_⟩
  have hfin : (extractLinks html).toFinset =
      ((extractHrefsList html.data).filter isInternalLink).toFinset := by
    ext a
    simp only [List.mem_toFinset]
    exact hmem a
  rw [← hfin, List.toFinset_card_of_nodup hnodup]

/-! ### Claim C2: the static asset checker and the configured file list -/

/-- C2 (code bug): with no files present on disk, the static checker records
findings only for the two files of the hard-coded list inside
`checkStaticFiles`; the configured seed file `src/pages/index.astro` from
`FILES_TO_CHECK` is missing yet produces no finding, because
`FILES_TO_CHECK` is never consulted. -/
theorem C2_files_to_check_unused :
    ("src/pages/index.astro" ∈ FILES_TO_CHECK) ∧
    checkStaticFiles (fun _ => false) =
      [⟨"static", "public/enhanced_dividend_result_20251016_145023.html",
        .notFound, .file, none⟩,
       ⟨"static", "public/netnet_result.html", .notFound, .file, none⟩] ∧
    (∀ fd ∈ checkStaticFiles (fun _ => false), fd.link ∉ FILES_TO_CHECK) := by
  decide

/-! ### Claim C6: outcomes of an individual link check -/

/-- C6: for a link the verifier actually checks (its raw form is not yet in
the visited set): a 2xx response adds no finding; a non-2xx response adds
exactly one finding with `type=link` and the numeric status; a thrown
error adds exactly one finding with `type=link`, status `TIMEOUT`, and
the error message. -/
theorem C6_verifier_outcomes (net : String → FetchOutcome) (st : CheckerState)
    (page rawLink : String) (h : rawLink ∉ st.checkedLinks) :
    (∀ s b, net (BASE_URL ++ normalizeLink rawLink) = .resp s b → respOk s = true →
      (checkLink net st page rawLink).1.brokenLinks = st.brokenLinks) ∧
    (∀ s b, net (BASE_URL ++ normalizeLink rawLink) = .resp s b → respOk s = false →
      (checkLink net st page rawLink).1.brokenLinks =
        st.brokenLinks ++ [⟨page, normalizeLink rawLink, .num s, .link, none⟩]) ∧
    (∀ m, net (BASE_URL ++ normalizeLink rawLink) = .err m →
      (checkLink net st page rawLink).1.brokenLinks =
        st.brokenLinks ++ [⟨page, normalizeLink rawLink, .timeout, .link, some m⟩]) := by
  refine ⟨?_, ?_, ?_⟩
  · intro s b hnet hok
    simp [checkLink, h, hnet, hok]
  · intro s b hnet hbad
    simp [checkLink, h, hnet, hbad]
  · intro m hnet
    simp [checkLink, h, hnet]

/-- C6 witness: a concrete 404 HEAD response on the unvisited link `/x`
records exactly the corresponding broken-link finding. -/
theorem C6_witness :
    ("/x" : String) ∉ initState.checkedLinks ∧
    (checkLink (fun _ => FetchOutcome.resp 404 "") initState "/" "/x").1.brokenLinks =
      initState.brokenLinks ++ [⟨"/", normalizeLink "/x", .num 404, .link, none⟩] :=
  ⟨by decide,
   (C6_verifier_outcomes (fun _ => FetchOutcome.resp 404 "") initState "/" "/x"
      (by decide)).2.1 404 "" rfl (by decide)⟩

/-! ### Claim C7: failure isolation for seed pages -/

/-- C7: a seed page whose fetch returns a non-2xx response yields exactly
one finding of `type=page` carrying the response status, and no link
extraction or link check happens for it (the only request issued is the
page GET and the visited set is untouched).  A seed page whose fetch
throws yields no finding at all, and the remaining seed pages are
processed exactly as they would have been. -/
theorem C7_page_failure_isolation (net : String → FetchOutcome)
    (st : CheckerState) (p : String) (ps : List String)
    (hs : st.serverRunning = true) :
    (∀ s b, net (BASE_URL ++ p) = .resp s b → respOk s = false →
      checkPageLinks net st p =
        ({ st with brokenLinks := st.brokenLinks ++ [⟨p, p, .num s, .page, none⟩] },
         [.getReq (BASE_URL ++ p)])) ∧
    (∀ m, net (BASE_URL ++ p) = .err m →
      runPages net st (p :: ps) =
        ((runPages net st ps).1,
         .getReq (BASE_URL ++ p) :: (runPages net st ps).2)) := by
  constructor
  · intro s b hnet hbad
    simp [checkPageLinks, hs, hnet, hbad]
  · intro m hnet
    have hcpl : checkPageLinks net st p = (st, [.getReq (BASE_URL ++ p)]) := by
      simp [checkPageLinks, hs, hnet]
    simp [runPages, hcpl]

/-- C7 witness: with the server marked running and every fetch throwing,
the first seed page contributes only its GET request and the remaining
seed pages are still processed. -/
theorem C7_witness :
    (⟨[], [], true⟩ : CheckerState).serverRunning = true ∧
    (∀ m, (fun _ => FetchOutcome.err "boom") (BASE_URL ++ "/a") = FetchOutcome.err m →
      runPages (fun _ => FetchOutcome.err "boom") ⟨[], [], true⟩ ["/a", "/b"] =
        ((runPages (fun _ => FetchOutcome.err "boom") ⟨[], [], true⟩ ["/b"]).1,
         .getReq (BASE_URL ++ "/a") ::
           (runPages (fun _ => FetchOutcome.err "boom") ⟨[], [], true⟩ ["/b"]).2)) :=
  ⟨rfl, (C7_page_failure_isolation (fun _ => FetchOutcome.err "boom")
      ⟨[], [], true⟩ "/a" ["/b"] rfl).2⟩

/-! ### Claim C5: a failed availability probe degrades to static-only mode -/

theorem checkPageLinks_down (net : String → FetchOutcome) (st : CheckerState)
    (page : String) (h : st.serverRunning = false) :
    checkPageLinks net st page = (st, []) := by
  simp [checkPageLinks, h]

theorem runPages_down (net : String → FetchOutcome) (ps : List String)
    (st : CheckerState) (h : st.serverRunning = false) :
    runPages net st ps = (st, []) := by
  induction ps with
  | nil => rfl
  | cons p ps ih => simp [runPages, checkPageLinks_down net st p h, ih]

/-- C5: when the availability probe fails (the initial GET throws or returns
non-2xx), the whole run issues no request beyond the probe itself — zero
page fetches and zero link checks — while the static asset checker still
runs: the final findings are exactly its findings, and every missing
static file is reported. -/
theorem C5_probe_fail_static_only (net : String → FetchOutcome)
    (fsExists : String → Bool)
    (h : ∀ s b, net (BASE_URL ++ "/") = .resp s b → respOk s = false) :
    (runChecker net fsExists).2 = [.getReq (BASE_URL ++ "/")] ∧
    (runChecker net fsExists).1.brokenLinks = checkStaticFiles fsExists ∧
    ∀ file ∈ staticFiles, fsExists file = false →
      (⟨"static", file, .notFound, .file, none⟩ : Finding) ∈
        (runChecker net fsExists).1.brokenLinks := by
  have hcss : checkServerStatus net initState =
      (initState, [.getReq (BASE_URL ++ "/")]) := by
    unfold checkServerStatus
    cases hnet : net (BASE_URL ++ "/") with
    | resp s b => simp [hnet, h s b hnet, initState]
    | err m => simp [hnet, initState]
  have hrun : runPages net initState PAGES_TO_CHECK = (initState, []) :=
    runPages_down net PAGES_TO_CHECK initState rfl
  have hres : runChecker net fsExists =
      ({ initState with brokenLinks := checkStaticFiles fsExists },
       [.getReq (BASE_URL ++ "/")]) := by
    have h1 : (checkServerStatus net initState).1 = initState := by rw [hcss]
    have h2 : (checkServerStatus net initState).2 =
        [Request.getReq (BASE_URL ++ "/")] := by rw [hcss]
    simp only [runChecker, h1, h2, hrun]
    simp [initState]
  refine ⟨by rw [hres], by rw [hres], fun file hf hmiss => ?_⟩
  rw [hres]
  show (⟨"static", file, .notFound, .file, none⟩ : Finding) ∈ checkStaticFiles fsExists
  exact List.mem_filterMap.2 ⟨file, hf, by simp [hmiss]⟩

/-- C5 witness: with an unreachable server and an empty disk, the run issues
exactly the probe request and reports both static files missing. -/
theorem C5_witness :
    (∀ s b, (fun _ => FetchOutcome.err "ECONNREFUSED") (BASE_URL ++ "/") =
        FetchOutcome.resp s b → respOk s = false) ∧
    ((runChecker (fun _ => FetchOutcome.err "ECONNREFUSED") (fun _ => false)).2 =
        [.getReq (BASE_URL ++ "/")] ∧
      (runChecker (fun _ => FetchOutcome.err "ECONNREFUSED") (fun _ => false)).1.brokenLinks =
        checkStaticFiles (fun _ => false) ∧
      ∀ file ∈ staticFiles, (fun _ => false : String → Bool) file = false →
        (⟨"static", file, .notFound, .file, none⟩ : Finding) ∈
          (runChecker (fun _ => FetchOutcome.err "ECONNREFUSED") (fun _ => false)).1.brokenLinks) :=
  ⟨fun _ _ hh => FetchOutcome.noConfusion hh,
   C5_probe_fail_static_only (fun _ => FetchOutcome.err "ECONNREFUSED")
     (fun _ => false) (fun _ _ hh => FetchOutcome.noConfusion hh)⟩

/-! ### Claim C1: global deduplication of link checks -/

/-- Trace invariant tying the visited set to the HEAD requests issued: raw
links already visited are never re-checked, each raw link is checked at
most once, the visited set only grows, and a checked raw link ends up in
the visited set. -/
def TraceOK (st : CheckerState) (p : CheckerState × List Request) : Prop :=
  (∀ r, r ∈ st.checkedLinks → countRaw p.2 r = 0) ∧
  (∀ r, countRaw p.2 r ≤ 1) ∧
  (∀ r, r ∈ st.checkedLinks → r ∈ p.1.checkedLinks) ∧
  (∀ r, 0 < countRaw p.2 r → r ∈ p.1.checkedLinks)

theorem countRaw_nil (r : String) : countRaw [] r = 0 := rfl

theorem countRaw_append (a b : List Request) (r : String) :
    countRaw (a ++ b) r = countRaw a r + countRaw b r := by
  simp [countRaw, List.filter_append]

theorem countRaw_getReq_singleton (u r : String) :
    countRaw [.getReq u] r = 0 := rfl

theorem countRaw_headReq (raw u r : String) :
    countRaw [.headReq raw u] r = if raw = r then 1 else 0 := by
  by_cases hr : raw = r
  · subst hr
    simp [countRaw, isHeadFor]
  · have hb : (raw == r) = false := beq_eq_false_iff_ne.mpr hr
    simp [countRaw, isHeadFor, hb, hr]

theorem traceOK_sameChecked (st st' : CheckerState) (tr : List Request)
    (hc : st'.checkedLinks = st.checkedLinks)
    (h0 : ∀ r, countRaw tr r = 0) : TraceOK st (st', tr) := by
  refine ⟨fun r _ => h0 r, ?_, ?_, ?_⟩
  · intro r; rw [h0 r]; exact Nat.zero_le 1
  · intro r hr; rw [hc]; exact hr
  · intro r hr; rw [h0 r] at hr; exact absurd hr (Nat.lt_irrefl 0)

theorem traceOK_single (st st' : CheckerState) (l url : String)
    (hmem : l ∉ st.checkedLinks)
    (hck : st'.checkedLinks = st.checkedLinks ++ [l]) :
    TraceOK st (st', [.headReq l url]) := by
  refine ⟨?_, ?_, ?_, ?_⟩
  · intro r hr
    have hne : ¬ l = r := fun he => hmem (he ▸ hr)
    rw [countRaw_headReq, if_neg hne]
  · intro r
    rw [countRaw_headReq]
    split
    · exact Nat.le_refl 1
    · exact Nat.zero_le 1
  · intro r hr
    rw [hck]
    exact List.mem_append_left _ hr
  · intro r hr
    rw [countRaw_headReq] at hr
    rw [hck]
    by_cases he : l = r
    · subst he
      exact List.mem_append_right _ (List.mem_singleton_self l)
    · rw [if_neg he] at hr
      exact absurd hr (Nat.lt_irrefl 0)

theorem traceOK_comp (st st1 st2 : CheckerState) (tr1 tr2 : List Request)
    (h1 : TraceOK st (st1, tr1)) (h2 : TraceOK st1 (st2, tr2)) :
    TraceOK st (st2, tr1 ++ tr2) := by
  obtain ⟨a1, b1, c1, d1⟩ := h1
  obtain ⟨a2, b2, c2, d2⟩ := h2
  refine ⟨?_, ?_, ?_, ?_⟩
  · intro r hr
    show countRaw (tr1 ++ tr2) r = 0
    rw [countRaw_append, a1 r hr, a2 r (c1 r hr)]
  · intro r
    show countRaw (tr1 ++ tr2) r ≤ 1
    rw [countRaw_append]
    rcases Nat.eq_zero_or_pos (countRaw tr1 r) with hz | hp
    · rw [hz, Nat.zero_add]; exact b2 r
    · rw [a2 r (d1 r hp), Nat.add_zero]; exact b1 r
  · intro r hr
    exact c2 r (c1 r hr)
  · intro r hr
    replace hr : 0 < countRaw (tr1 ++ tr2) r := hr
    rw [countRaw_append] at hr
    rcases Nat.eq_zero_or_pos (countRaw tr1 r) with hz | hp
    · rw [hz, Nat.zero_add] at hr; exact d2 r hr
    · exact c2 r (d1 r hp)

theorem traceOK_checkLink (net : String → FetchOutcome) (st : CheckerState)
    (page l : String) : TraceOK st (checkLink net st page l) := by
  simp only [checkLink]
  by_cases hmem : l ∈ st.checkedLinks
  · rw [if_pos hmem]
    exact traceOK_sameChecked st st [] rfl countRaw_nil
  · rw [if_neg hmem]
    split
    · split
      · exact traceOK_single st _ l _ hmem rfl
      · exact traceOK_single st _ l _ hmem rfl
    · exact traceOK_single st _ l _ hmem rfl

theorem traceOK_checkLinksList (net : String → FetchOutcome) (page : String)
    (ls : List String) : ∀ st, TraceOK st (checkLinksList net page st ls) := by
  induction ls with
  | nil =>
    intro st
    exact traceOK_sameChecked st st [] rfl countRaw_nil
  | cons l ls ih =>
    intro st
    exact traceOK_comp st (checkLink net st page l).1 _ (checkLink net st page l).2 _
      (traceOK_checkLink net st page l) (ih (checkLink net st page l).1)

theorem traceOK_checkPageLinks (net : String → FetchOutcome) (st : CheckerState)
    (page : String) : TraceOK st (checkPageLinks net st page) := by
  simp only [checkPageLinks]
  split
  · split
    · split
      · exact traceOK_comp st st _ [.getReq (BASE_URL ++ page)] _
          (traceOK_sameChecked st st _ rfl (countRaw_getReq_singleton _))
          (traceOK_checkLinksList net page _ st)
      · exact traceOK_sameChecked st _ _ rfl (countRaw_getReq_singleton _)
    · exact traceOK_sameChecked st st _ rfl (countRaw_getReq_singleton _)
  · exact traceOK_sameChecked st st [] rfl countRaw_nil

theorem traceOK_runPages (net : String → FetchOutcome) (ps : List String) :
    ∀ st, TraceOK st (runPages net st ps) := by
  induction ps with
  | nil =>
    intro st
    exact traceOK_sameChecked st st [] rfl countRaw_nil
  | cons p ps ih =>
    intro st
    exact traceOK_comp st (checkPageLinks net st p).1 _ (checkPageLinks net st p).2 _
      (traceOK_checkPageLinks net st p) (ih (checkPageLinks net st p).1)

theorem traceOK_checkServerStatus (net : String → FetchOutcome)
    (st : CheckerState) : TraceOK st (checkServerStatus net st) := by
  simp only [checkServerStatus]
  split
  · split
    · exact traceOK_sameChecked st _ _ rfl (countRaw_getReq_singleton _)
    · exact traceOK_sameChecked st _ _ rfl (countRaw_getReq_singleton _)
  · exact traceOK_sameChecked st _ _ rfl (countRaw_getReq_singleton _)

/-- C1 counterexample: deduplication is keyed on the raw link text, not the
normalized link.  With one seed page referencing `/x` both through the
base-path-prefixed raw form `/blog-monakit/x` and the bare raw form
`/x`, the run issues two HEAD existence checks to the same normalized
URL, refuting at most one existence check per normalized link. -/
theorem C1_counterexample :
    countHeadUrl
      ((runChecker
        (fun url => if url = BASE_URL ++ "/" then
            .resp 200 "<a href=\"/blog-monakit/x\">a</a> <a href=\"/x\">b</a>"
          else .resp 200 "")
        (fun _ => true)).2)
      (BASE_URL ++ "/x") = 2 := by
  decide

/-- C1 (amended): deduplication is global across the whole run and across
all seed pages, but keyed on the raw link text: for every run and every
raw link string, at most one HEAD existence check is issued for it; the
same normalized link may be re-checked only via different raw forms. -/
theorem C1_dedup_global_per_raw_link (net : String → FetchOutcome)
    (fsExists : String → Bool) (r : String) :
    countRaw ((runChecker net fsExists).2) r ≤ 1 := by
  have h := traceOK_comp initState (checkServerStatus net initState).1
    (runPages net (checkServerStatus net initState).1 PAGES_TO_CHECK).1
    (checkServerStatus net initState).2
    (runPages net (checkServerStatus net initState).1 PAGES_TO_CHECK).2
    (traceOK_checkServerStatus net initState)
    (traceOK_runPages net PAGES_TO_CHECK (checkServerStatus net initState).1)
  exact h.2.1 r

end LinkCheck
